import Mathlib

/-!
Shallow embedding of the conflict-analysis core of
src/llm-git-conflict-resolve/skill/git_tools.py.

Text is modelled as lists of characters (abbrev Str below). File content,
as consumed by parse_conflict_markers, is modelled as its list of lines in
the sense of Python splitlines(keepends=True): each line keeps its own
terminator, and joining the lines back recovers the text. Pure Python
string helpers (strip, replace, the substring test of the "in" operator,
the regex scan for maximal word-character runs) are embedded as
structurally recursive functions over character lists. External
capabilities (the regex engine used by analyze_dependencies, the ast.parse
syntax check used by validate_file, and the file read itself) are modelled
as explicit parameters, as the specification directs for injected
capabilities.
-/

namespace GitTools

/-- Python strings, modelled as lists of characters. -/
abbrev Str := List Char

/-- Shorthand turning a Lean string literal into the Str model. -/
def str (s : String) : Str := s.toList

/-- The characters removed by the Python str.strip() call used throughout
git_tools.py (ASCII whitespace). -/
def pyIsSpace (c : Char) : Bool :=
  c = ' ' || c = '\t' || c = '\n' || c = '\r' || c = '\x0b' || c = '\x0c'

/-- Python str.strip(): drop whitespace from both ends. -/
def pyStrip (s : Str) : Str :=
  ((s.dropWhile pyIsSpace).reverse.dropWhile pyIsSpace).reverse

/-- Python str.startswith(p): the line begins with the given token. -/
def startsWithL (p l : Str) : Bool := p.isPrefixOf l

/-- Python substring containment, the expression "needle in hay". -/
def isSubstring (needle : Str) : Str → Bool
  | [] => needle.isEmpty
  | c :: cs => needle.isPrefixOf (c :: cs) || isSubstring needle cs

/-- Python s.replace(c, ""): delete every occurrence of the character c. -/
def removeChar (c : Char) (s : Str) : Str := s.filter (fun x => x != c)

/-- The chain .replace(" ", "").replace("\t", "").replace("\n", "") from
the WHITESPACE rule of categorize_conflict (git_tools.py lines 297-298). -/
def removeWs (s : Str) : Str := removeChar '\n' (removeChar '\t' (removeChar ' ' s))

/-- A word character in the sense of the regex \w (ASCII): alphanumeric or
underscore. -/
def isWordChar (c : Char) : Bool := c.isAlphanum || c = '_'

/-- Accumulator version of the scan for maximal \w+ runs; cur holds the
current run reversed. -/
def wordTokensAux : Str → Str → List Str
  | cur, [] => if cur.isEmpty then [] else [cur.reverse]
  | cur, c :: cs =>
    if isWordChar c then wordTokensAux (c :: cur) cs
    else if cur.isEmpty then wordTokensAux [] cs
    else cur.reverse :: wordTokensAux [] cs

/-- Python re.findall(r"\w+", s): the maximal runs of word characters, in
order. -/
def wordTokens (s : Str) : List Str := wordTokensAux [] s

/-- Python set(re.findall(r"\w+", s)), modelled as the duplicate-free list
of word tokens; all observations made of it (membership, size, iteration
for the digit test) are order-insensitive. -/
def wordSet (s : Str) : List Str := (wordTokens s).dedup

/-- Python str.isdigit() on a token: nonempty and all characters digits. -/
def pyIsDigit (t : Str) : Bool := !t.isEmpty && t.all Char.isDigit

/-- Symmetric difference of two duplicate-free lists, the model of Python
set.symmetric_difference (git_tools.py line 311). -/
def symmDiffL (a b : List Str) : List Str :=
  a.filter (fun x => !b.contains x) ++ b.filter (fun x => !a.contains x)

/-- Classification of conflict types (git_tools.py lines 19-27). -/
inductive ConflictType
  | IMPORT
  | WHITESPACE
  | RENAME
  | REFACTOR
  | LOGIC
  | FUNCTION_SIGNATURE
  | UNKNOWN
deriving DecidableEq

/-- Estimated difficulty of resolution (git_tools.py lines 30-45). -/
inductive Difficulty
  | EASY
  | MEDIUM
  | HARD
  | ESCALATE
deriving DecidableEq

/-- The rank of a difficulty in the order list of Difficulty.__lt__
(git_tools.py line 40): EASY < MEDIUM < HARD < ESCALATE. -/
def Difficulty.rank : Difficulty → Nat
  | Difficulty.EASY => 0
  | Difficulty.MEDIUM => 1
  | Difficulty.HARD => 2
  | Difficulty.ESCALATE => 3

/-- Python max(a, b) over the Difficulty order: returns b exactly when
a < b, else a. -/
def pyMax (a b : Difficulty) : Difficulty :=
  if a.rank < b.rank then b else a

/-- One conflict block as emitted by parse_conflict_markers (git_tools.py
lines 172-180): 1-based start and end lines, the raw ours and theirs text,
and the stripped marker lines as labels. -/
structure ConflictBlock where
  start_line : Nat
  end_line : Nat
  ours : Str
  theirs : Str
  ours_label : Str
  theirs_label : Str
deriving DecidableEq

/-- The opening conflict marker token. -/
def openMarker : Str := str "<<<<<<<"

/-- The separator marker token. -/
def sepMarker : Str := str "======="

/-- The closing conflict marker token. -/
def closeMarker : Str := str ">>>>>>>"

/-- A line is a marker line when it begins with one of the three tokens. -/
def isMarkerLine (l : Str) : Bool :=
  startsWithL openMarker l || startsWithL sepMarker l || startsWithL closeMarker l

/-- The three sub-states of the forward scan of parse_conflict_markers:
outside any block, collecting the ours side (after an opening marker), or
collecting the theirs side (after the separator). The collecting states
record the 0-based index of the opening marker, the opening marker line,
and the accumulated content lines. -/
inductive ParseState
  | outside
  | collectOurs (start : Nat) (label : Str) (ours : List Str)
  | collectTheirs (start : Nat) (label : Str) (ours : List Str) (theirs : List Str)

/-- The forward scan of parse_conflict_markers (git_tools.py lines
144-182) over the remaining lines: i is the 0-based index of the first
remaining line, acc the blocks emitted so far. A line beginning with the
opening marker leaves the outside state; lines are accumulated until the
separator and then until the closing marker, which emits the block; a
block still open at end of input is discarded. -/
def parseLines : List Str → ParseState → Nat → List ConflictBlock → List ConflictBlock
  | [], _, _, acc => acc
  | l :: ls, ParseState.outside, i, acc =>
    if startsWithL openMarker l then
      parseLines ls (ParseState.collectOurs i l []) (i + 1) acc
    else
      parseLines ls ParseState.outside (i + 1) acc
  | l :: ls, ParseState.collectOurs start label ours, i, acc =>
    if startsWithL sepMarker l then
      parseLines ls (ParseState.collectTheirs start label ours []) (i + 1) acc
    else
      parseLines ls (ParseState.collectOurs start label (ours ++ [l])) (i + 1) acc
  | l :: ls, ParseState.collectTheirs start label ours theirs, i, acc =>
    if startsWithL closeMarker l then
      parseLines ls ParseState.outside (i + 1)
        (acc ++ [{ start_line := start + 1, end_line := i + 1,
                   ours := ours.flatten, theirs := theirs.flatten,
                   ours_label := pyStrip label, theirs_label := pyStrip l }])
    else
      parseLines ls (ParseState.collectTheirs start label ours (theirs ++ [l])) (i + 1) acc

/-- parse_conflict_markers (git_tools.py lines 136-184) on file content
given as its keepends line list: scan from the first line, outside any
block, with no block emitted yet. -/
def parse_conflict_markers (lines : List Str) : List ConflictBlock :=
  parseLines lines ParseState.outside 0 []

/-- The import-marking substrings of rule 1 of categorize_conflict
(git_tools.py line 292). -/
def import_keywords : List Str :=
  [str "import ", str "from ", str "#include", str "require("]

/-- The definition keywords of rule 3 of categorize_conflict (git_tools.py
line 303). -/
def signature_keywords : List Str :=
  [str "def ", str "function ", str "func ", str "class "]

/-- One iteration of the block-classification loop of categorize_conflict
(git_tools.py lines 287-324): strip both sides, then apply the fixed rule
order IMPORT, WHITESPACE, FUNCTION_SIGNATURE, RENAME, LOGIC; the
accumulator carries the per-block type list and the running maximum
difficulty. -/
def classifyStep (acc : List ConflictType × Difficulty) (marker : ConflictBlock) :
    List ConflictType × Difficulty :=
  let ours := pyStrip marker.ours
  let theirs := pyStrip marker.theirs
  if import_keywords.any (fun keyword => isSubstring keyword (ours ++ theirs)) then
    (acc.1 ++ [ConflictType.IMPORT], acc.2)
  else if removeWs ours = removeWs theirs then
    (acc.1 ++ [ConflictType.WHITESPACE], acc.2)
  else if signature_keywords.any (fun keyword => isSubstring keyword (ours ++ theirs)) then
    (acc.1 ++ [ConflictType.FUNCTION_SIGNATURE], pyMax acc.2 Difficulty.MEDIUM)
  else
    let ours_words := wordSet ours
    let theirs_words := wordSet theirs
    let diff := symmDiffL ours_words theirs_words
    let is_numeric_change := diff.any pyIsDigit
    if is_numeric_change = false ∧ diff.length < 3 ∧ 0 < ours_words.length then
      (acc.1 ++ [ConflictType.RENAME], pyMax acc.2 Difficulty.MEDIUM)
    else
      (acc.1 ++ [ConflictType.LOGIC], Difficulty.HARD)

/-- The severity priority list used to choose a primary type (git_tools.py
lines 330-332). -/
def priorityOrder : List ConflictType :=
  [ConflictType.LOGIC, ConflictType.FUNCTION_SIGNATURE, ConflictType.REFACTOR,
   ConflictType.RENAME, ConflictType.IMPORT, ConflictType.WHITESPACE]

/-- Primary type selection (git_tools.py lines 327-337): the first type of
the priority list present among the per-block types; the first block type
when none of the priority list occurs; UNKNOWN for the empty list. -/
def primaryType (conflict_types : List ConflictType) : ConflictType :=
  match conflict_types with
  | [] => ConflictType.UNKNOWN
  | t0 :: _ =>
    match priorityOrder.find? (fun t => decide (t ∈ conflict_types)) with
    | some t => t
    | none => t0

/-- The verdict dictionary returned by categorize_conflict: the fields of
both return shapes (the UNKNOWN shape carries a reason and no type list;
the normal shape carries the type list and block count and no reason). -/
structure CategorizeResult where
  type : ConflictType
  difficulty : Difficulty
  auto_resolvable : Bool
  all_types : Option (List ConflictType)
  num_conflicts : Option Nat
  reason : Option Str
deriving DecidableEq

/-- categorize_conflict (git_tools.py lines 268-356) as a function of the
parsed conflict blocks of the file (the markers list produced by
parse_conflict_markers; the surrounding file and git reads are I/O glue).
Empty markers yield the UNKNOWN verdict; otherwise the blocks are
classified in order, the primary type is chosen by severity, the
auto-resolvable flag requires every block type mechanical, and a LOGIC
primary type forces difficulty HARD, or ESCALATE above three blocks. -/
def categorize_conflict (markers : List ConflictBlock) : CategorizeResult :=
  if markers.isEmpty then
    { type := ConflictType.UNKNOWN, difficulty := Difficulty.MEDIUM,
      auto_resolvable := false, all_types := none, num_conflicts := none,
      reason := some (str "No conflict markers found") }
  else
    let folded := markers.foldl classifyStep ([], Difficulty.EASY)
    let conflict_types := folded.1
    let primary_type := primaryType conflict_types
    let auto_resolvable := conflict_types.all
      (fun t => decide (t ∈ [ConflictType.IMPORT, ConflictType.WHITESPACE]))
    let max_difficulty :=
      if primary_type = ConflictType.LOGIC then
        (if markers.length > 3 then Difficulty.ESCALATE else Difficulty.HARD)
      else folded.2
    { type := primary_type, difficulty := max_difficulty,
      auto_resolvable := auto_resolvable,
      all_types := some conflict_types, num_conflicts := some markers.length,
      reason := none }

/-- The report produced by validate_file (git_tools.py lines 373-379). -/
structure ValidationResult where
  language : Str
  syntax_valid : Option Bool
  semantic_errors : List Str
  warnings : List Str
deriving DecidableEq

/-- Outcome of the external language-specific syntax check capability (the
ast.parse call of git_tools.py lines 383-392): success, a syntax error
with location and message, or any other failure. -/
inductive LangCheck
  | ok
  | syntaxError (lineno : Nat) (msg : Str)
  | otherError (msg : Str)

/-- Decimal rendering of a number, for the Python f-string messages. -/
def natToStr (n : Nat) : Str := (Nat.repr n).toList

/-- validate_file (git_tools.py lines 359-410) as a function of the file
content, the chosen language, and the outcome of the external python
syntax check capability. The language-specific stage fills the report; the
final stage unconditionally re-scans the content for the three literal
marker tokens and, when any is present, appends the residual-marker
semantic error and forces syntax_valid to false. -/
def validate_file (content : Str) (language : Str) (check : LangCheck) : ValidationResult :=
  let results : ValidationResult :=
    { language := language, syntax_valid := none, semantic_errors := [], warnings := [] }
  let results :=
    if language = str "python" then
      match check with
      | LangCheck.ok => { results with syntax_valid := some true }
      | LangCheck.syntaxError lineno msg =>
          { results with syntax_valid := some false,
                         semantic_errors := results.semantic_errors ++
                           [str "Line " ++ natToStr lineno ++ str ": " ++ msg] }
      | LangCheck.otherError msg =>
          { results with warnings := results.warnings ++
                           [str "Validation error: " ++ msg] }
    else
      { results with syntax_valid := some true,
                     warnings := results.warnings ++
                       [str "No syntax validator available for " ++ language] }
  if [str "<<<<<<<", str "=======", str ">>>>>>>"].any
      (fun marker => isSubstring marker content) then
    { results with semantic_errors := results.semantic_errors ++
                     [str "Conflict markers still present"],
                   syntax_valid := some false }
  else
    results

/-- The three lists returned by analyze_dependencies (git_tools.py lines
261-265). -/
structure DepScan where
  imports : List Str
  functions : List Str
  variables' : List Str
deriving DecidableEq

/-- The import regex patterns of analyze_dependencies (git_tools.py lines
248-252), kept as data and fed to the injected regex capability. -/
def import_patterns : List Str :=
  [str "^\\s*import\\s+[\\w., ]+",
   str "^\\s*from\\s+[\\w.]+\\s+import\\s+",
   str "^\\s*#include\\s*[<\"][\\w./]+[>\"]"]

/-- The function-definition pattern of analyze_dependencies (git_tools.py
line 258). -/
def func_pattern : Str := str "\\b(?:def|function|func)\\s+(\\w+)\\s*\\("

/-- analyze_dependencies (git_tools.py lines 233-265) as a function of the
file read outcome (none when the file cannot be read) and of the injected
regex capability findall (pattern and content to list of matches, the
model of re.findall with re.MULTILINE). An unreadable file yields three
empty lists; otherwise the import matches of the three patterns are
concatenated and truncated to 20, the function matches truncated to 20,
and the variables list is always empty. -/
def analyze_dependencies (findall : Str → Str → List Str) (file : Option Str) : DepScan :=
  match file with
  | none => { imports := [], functions := [], variables' := [] }
  | some content =>
    let imports := (import_patterns.map (fun pattern => findall pattern content)).flatten
    let functions := findall func_pattern content
    { imports := imports.take 20, functions := functions.take 20, variables' := [] }

/-! Basic lemmas about the string model. -/

theorem isPrefixOf_append_right {k l : Str} (r : Str) (h : k.isPrefixOf l = true) :
    k.isPrefixOf (l ++ r) = true := by
  induction k generalizing l with
  | nil =>
    generalize l ++ r = m
    cases m <;> rfl
  | cons a as ih =>
    cases l with
    | nil => simp [List.isPrefixOf] at h
    | cons b bs =>
      simp only [List.cons_append, List.isPrefixOf, Bool.and_eq_true] at h ⊢
      exact ⟨h.1, ih h.2⟩

theorem isSubstring_nil (s : Str) : isSubstring [] s = true := by
  induction s with
  | nil => rfl
  | cons c cs ih => simp [isSubstring, List.isPrefixOf]

theorem isSubstring_append_left {k a : Str} (b : Str) (h : isSubstring k a = true) :
    isSubstring k (a ++ b) = true := by
  induction a with
  | nil =>
    have hk : k = [] := by simpa [isSubstring, List.isEmpty_iff] using h
    subst hk; exact isSubstring_nil b
  | cons c cs ih =>
    simp only [List.cons_append, isSubstring, Bool.or_eq_true] at h ⊢
    rcases h with h | h
    · exact Or.inl (isPrefixOf_append_right b h)
    · exact Or.inr (ih h)

theorem isSubstring_append_right {k b : Str} (a : Str) (h : isSubstring k b = true) :
    isSubstring k (a ++ b) = true := by
  induction a with
  | nil => simpa using h
  | cons c cs ih =>
    simp only [List.cons_append, isSubstring, Bool.or_eq_true]
    exact Or.inr ih

theorem isMarkerLine_false {l : Str} (h : isMarkerLine l = false) :
    startsWithL openMarker l = false ∧ startsWithL sepMarker l = false ∧
      startsWithL closeMarker l = false := by
  simpa [isMarkerLine, Bool.or_eq_false_iff, and_assoc] using h

/-! Scanning lemmas for the marker parser: the scan skips non-marker lines
while outside, and accumulates content lines while collecting. -/

theorem parseLines_skip (a : List Str) (ha : ∀ l ∈ a, startsWithL openMarker l = false)
    (rest : List Str) (i : Nat) (acc : List ConflictBlock) :
    parseLines (a ++ rest) ParseState.outside i acc =
      parseLines rest ParseState.outside (i + a.length) acc := by
  induction a generalizing i with
  | nil => simp
  | cons l a ih =>
    have hl : startsWithL openMarker l = false := ha l (by simp)
    have ha' : ∀ x ∈ a, startsWithL openMarker x = false := fun x hx => ha x (by simp [hx])
    simp only [List.cons_append, parseLines, hl, Bool.false_eq_true, if_false, List.append_eq]
    rw [ih ha' (i + 1)]
    congr 1
    simp [Nat.add_comm, Nat.add_assoc, Nat.add_left_comm]

theorem parseLines_collectOurs (a : List Str)
    (ha : ∀ l ∈ a, startsWithL sepMarker l = false)
    (rest : List Str) (s : Nat) (lab : Str) (cur : List Str) (i : Nat)
    (acc : List ConflictBlock) :
    parseLines (a ++ rest) (ParseState.collectOurs s lab cur) i acc =
      parseLines rest (ParseState.collectOurs s lab (cur ++ a)) (i + a.length) acc := by
  induction a generalizing cur i with
  | nil => simp
  | cons l a ih =>
    have hl : startsWithL sepMarker l = false := ha l (by simp)
    have ha' : ∀ x ∈ a, startsWithL sepMarker x = false := fun x hx => ha x (by simp [hx])
    simp only [List.cons_append, parseLines, hl, Bool.false_eq_true, if_false, List.append_eq]
    rw [ih ha' (cur ++ [l]) (i + 1)]
    have h1 : (cur ++ [l]) ++ a = cur ++ l :: a := by simp
    have h2 : i + 1 + a.length = i + (l :: a).length := by simp; omega
    rw [h1, h2]

theorem parseLines_collectTheirs (a : List Str)
    (ha : ∀ l ∈ a, startsWithL closeMarker l = false)
    (rest : List Str) (s : Nat) (lab : Str) (ours cur : List Str) (i : Nat)
    (acc : List ConflictBlock) :
    parseLines (a ++ rest) (ParseState.collectTheirs s lab ours cur) i acc =
      parseLines rest (ParseState.collectTheirs s lab ours (cur ++ a)) (i + a.length) acc := by
  induction a generalizing cur i with
  | nil => simp
  | cons l a ih =>
    have hl : startsWithL closeMarker l = false := ha l (by simp)
    have ha' : ∀ x ∈ a, startsWithL closeMarker x = false := fun x hx => ha x (by simp [hx])
    simp only [List.cons_append, parseLines, hl, Bool.false_eq_true, if_false, List.append_eq]
    rw [ih ha' (cur ++ [l]) (i + 1)]
    have h1 : (cur ++ [l]) ++ a = cur ++ l :: a := by simp
    have h2 : i + 1 + a.length = i + (l :: a).length := by simp; omega
    rw [h1, h2]

/-- Claim C1: on input text containing exactly one well-formed marker
triple (an opening-marker line, later a separator line, later a
closing-marker line, and no other marker lines anywhere),
parse_conflict_markers returns exactly one block: its ours field is
exactly the concatenation of the lines strictly between the opening
marker and the separator, its theirs field exactly the concatenation of
the lines strictly between the separator and the closing marker (line
terminators preserved, marker lines excluded, embedded blank lines
included), its start_line the 1-based line number of the opening marker
and its end_line the 1-based line number of the closing marker. -/
theorem claim_C1 (a oursL theirsL b : List Str) (openL sepL closeL : Str)
    (hopen : startsWithL openMarker openL = true)
    (hsep : startsWithL sepMarker sepL = true)
    (hclose : startsWithL closeMarker closeL = true)
    (hA : ∀ l ∈ a, isMarkerLine l = false)
    (hO : ∀ l ∈ oursL, isMarkerLine l = false)
    (hT : ∀ l ∈ theirsL, isMarkerLine l = false)
    (hB : ∀ l ∈ b, isMarkerLine l = false) :
    parse_conflict_markers (a ++ openL :: (oursL ++ sepL :: (theirsL ++ closeL :: b))) =
      [{ start_line := a.length + 1,
         end_line := a.length + oursL.length + theirsL.length + 3,
         ours := oursL.flatten, theirs := theirsL.flatten,
         ours_label := pyStrip openL, theirs_label := pyStrip closeL }] := by
  unfold parse_conflict_markers
  rw [parseLines_skip a (fun l hl => (isMarkerLine_false (hA l hl)).1)]
  simp only [parseLines, hopen, if_true]
  rw [parseLines_collectOurs oursL (fun l hl => (isMarkerLine_false (hO l hl)).2.1)]
  simp only [parseLines, hsep, if_true]
  rw [parseLines_collectTheirs theirsL (fun l hl => (isMarkerLine_false (hT l hl)).2.2)]
  simp only [parseLines, hclose, if_true]
  rw [show b = b ++ [] from (List.append_nil b).symm,
      parseLines_skip b (fun l hl => (isMarkerLine_false (hB (l := l) (by simpa using hl))).1)]
  simp only [parseLines, List.nil_append]
  refine congrArg (fun z => [z]) ?_
  simp only [ConflictBlock.mk.injEq, and_true, true_and]
  omega

/-- Claim C1 witness at a concrete single-triple input. -/
theorem claim_C1_witness :
    parse_conflict_markers
      [str "c\n", str "<<<<<<< HEAD\n", str "x\n", str "\n", str "=======\n",
       str "y\n", str ">>>>>>> dev\n", str "d\n"] =
      [{ start_line := 2, end_line := 7,
         ours := str "x\n" ++ str "\n", theirs := str "y\n" ++ [],
         ours_label := str "<<<<<<< HEAD", theirs_label := str ">>>>>>> dev" }] := by
  have h := claim_C1 [str "c\n"] [str "x\n", str "\n"] [str "y\n"] [str "d\n"]
    (str "<<<<<<< HEAD\n") (str "=======\n") (str ">>>>>>> dev\n")
    (by decide) (by decide) (by decide) (by decide) (by decide) (by decide) (by decide)
  exact h.trans (by decide)

/-- Claim C8: a region whose opening marker is never followed by a
separator line, or whose separator is never followed by a closing-marker
line, yields no block: the partially collected block is silently
discarded. In particular text whose only markers are an opening marker
with no separator and no closing marker yields zero blocks. -/
theorem claim_C8 :
    (∀ (a rest : List Str) (openL : Str),
      (∀ l ∈ a, isMarkerLine l = false) →
      startsWithL openMarker openL = true →
      (∀ l ∈ rest, startsWithL sepMarker l = false) →
      parse_conflict_markers (a ++ openL :: rest) = []) ∧
    (∀ (a oursL rest : List Str) (openL sepL : Str),
      (∀ l ∈ a, isMarkerLine l = false) →
      startsWithL openMarker openL = true →
      (∀ l ∈ oursL, startsWithL sepMarker l = false) →
      startsWithL sepMarker sepL = true →
      (∀ l ∈ rest, startsWithL closeMarker l = false) →
      parse_conflict_markers (a ++ openL :: (oursL ++ sepL :: rest)) = []) := by
  constructor
  · intro a rest openL hA hopen hrest
    unfold parse_conflict_markers
    rw [parseLines_skip a (fun l hl => (isMarkerLine_false (hA l hl)).1)]
    simp only [parseLines, hopen, if_true]
    rw [show rest = rest ++ [] from (List.append_nil rest).symm,
        parseLines_collectOurs rest (fun l hl => hrest l (by simpa using hl))]
    rfl
  · intro a oursL rest openL sepL hA hopen hO hsep hrest
    unfold parse_conflict_markers
    rw [parseLines_skip a (fun l hl => (isMarkerLine_false (hA l hl)).1)]
    simp only [parseLines, hopen, if_true]
    rw [parseLines_collectOurs oursL hO]
    simp only [parseLines, hsep, if_true]
    rw [show rest = rest ++ [] from (List.append_nil rest).symm,
        parseLines_collectTheirs rest (fun l hl => hrest l (by simpa using hl))]
    rfl

/-- Claim C8 witness: an unterminated opening marker alone, and an
opening marker with separator but no closing marker, both yield zero
blocks. -/
theorem claim_C8_witness :
    parse_conflict_markers [str "<<<<<<< HEAD\n", str "x\n"] = [] ∧
    parse_conflict_markers
      [str "<<<<<<< HEAD\n", str "x\n", str "=======\n", str "y\n"] = [] := by
  constructor
  · exact claim_C8.1 [] [str "x\n"] (str "<<<<<<< HEAD\n")
      (by decide) (by decide) (by decide)
  · exact claim_C8.2 [] [str "x\n"] [str "y\n"] (str "<<<<<<< HEAD\n") (str "=======\n")
      (by decide) (by decide) (by decide) (by decide) (by decide)

/-! Structural soundness of the marker parser: every emitted block comes
from an opening marker, a separator and a closing marker found in that
order, its ours content holds no separator line and its theirs content no
closing-marker line. Nested opening-marker lines (and closing-marker lines
before the separator, or further separator lines after the first) are
accumulated as plain content by the scan, so they can occur inside a
block. -/

/-- Decomposition produced for a block emitted while scanning from the
outside state at 0-based index i: the three delimiting markers in order,
no separator line strictly between opening marker and separator, no
closing-marker line strictly between separator and closing marker, and
the block fields computed from the decomposition. -/
def BlockShape (lines : List Str) (i : Nat) (blk : ConflictBlock) : Prop :=
  ∃ pre openL oursL sepL theirsL closeL post,
    lines = pre ++ openL :: (oursL ++ sepL :: (theirsL ++ closeL :: post)) ∧
    startsWithL openMarker openL = true ∧
    startsWithL sepMarker sepL = true ∧
    startsWithL closeMarker closeL = true ∧
    (∀ l ∈ oursL, startsWithL sepMarker l = false) ∧
    (∀ l ∈ theirsL, startsWithL closeMarker l = false) ∧
    blk = { start_line := i + pre.length + 1,
            end_line := i + pre.length + oursL.length + theirsL.length + 3,
            ours := oursL.flatten, theirs := theirsL.flatten,
            ours_label := pyStrip openL, theirs_label := pyStrip closeL }

/-- Decomposition for the first block completed out of the collect-ours
state (opening marker already seen at index s, content cur already
accumulated). -/
def OursShape (lines : List Str) (s : Nat) (lab : Str) (cur : List Str) (i : Nat)
    (blk : ConflictBlock) : Prop :=
  ∃ oursExt sepL theirsL closeL post,
    lines = oursExt ++ sepL :: (theirsL ++ closeL :: post) ∧
    startsWithL sepMarker sepL = true ∧
    startsWithL closeMarker closeL = true ∧
    (∀ l ∈ oursExt, startsWithL sepMarker l = false) ∧
    (∀ l ∈ theirsL, startsWithL closeMarker l = false) ∧
    blk = { start_line := s + 1, end_line := i + oursExt.length + theirsL.length + 2,
            ours := (cur ++ oursExt).flatten, theirs := theirsL.flatten,
            ours_label := pyStrip lab, theirs_label := pyStrip closeL }

/-- Decomposition for the first block completed out of the collect-theirs
state (opening marker at index s and separator already seen, ours content
oursAcc final, theirs content cur already accumulated). -/
def TheirsShape (lines : List Str) (s : Nat) (lab : Str) (oursAcc cur : List Str) (i : Nat)
    (blk : ConflictBlock) : Prop :=
  ∃ theirsExt closeL post,
    lines = theirsExt ++ closeL :: post ∧
    startsWithL closeMarker closeL = true ∧
    (∀ l ∈ theirsExt, startsWithL closeMarker l = false) ∧
    blk = { start_line := s + 1, end_line := i + theirsExt.length + 1,
            ours := oursAcc.flatten, theirs := (cur ++ theirsExt).flatten,
            ours_label := pyStrip lab, theirs_label := pyStrip closeL }

/-- The extra provenance available for the first block completed from a
given partial state. -/
def StateShape : ParseState → List Str → Nat → ConflictBlock → Prop
  | ParseState.outside, _, _, _ => False
  | ParseState.collectOurs s lab cur, lines, i, blk => OursShape lines s lab cur i blk
  | ParseState.collectTheirs s lab oursAcc cur, lines, i, blk =>
      TheirsShape lines s lab oursAcc cur i blk

theorem BlockShape_cons (l : Str) {ls : List Str} {i : Nat} {blk : ConflictBlock}
    (h : BlockShape ls (i + 1) blk) : BlockShape (l :: ls) i blk := by
  obtain ⟨pre, openL, oursL, sepL, theirsL, closeL, post, hEq, h1, h2, h3, h4, h5, hblk⟩ := h
  refine ⟨l :: pre, openL, oursL, sepL, theirsL, closeL, post, by simp [hEq],
    h1, h2, h3, h4, h5, ?_⟩
  rw [hblk]
  simp only [ConflictBlock.mk.injEq, List.length_cons, and_true, true_and]
  omega

/-- Provenance of every block in the output of the scan, by induction over
the remaining lines, for an arbitrary state: the block was already in the
accumulator, or is delimited inside the remaining lines, or completes the
current partial state. -/
theorem parseLines_mem (lines : List Str) :
    ∀ (st : ParseState) (i : Nat) (acc : List ConflictBlock) (blk : ConflictBlock),
      blk ∈ parseLines lines st i acc →
      blk ∈ acc ∨ BlockShape lines i blk ∨ StateShape st lines i blk := by
  induction lines with
  | nil =>
    intro st i acc blk h
    exact Or.inl (by simpa [parseLines] using h)
  | cons l ls ih =>
    intro st i acc blk h
    cases st with
    | outside =>
      by_cases hl : startsWithL openMarker l = true
      · simp only [parseLines, hl, if_true] at h
        rcases ih _ _ _ _ h with hacc | hshape | hstate
        · exact Or.inl hacc
        · exact Or.inr (Or.inl (BlockShape_cons l hshape))
        · obtain ⟨oursExt, sepL, theirsL, closeL, post, hEq, h2, h3, h4, h5, hblk⟩ := hstate
          refine Or.inr (Or.inl ⟨[], l, oursExt, sepL, theirsL, closeL, post,
            by simp [hEq], hl, h2, h3, h4, h5, ?_⟩)
          rw [hblk]
          simp only [ConflictBlock.mk.injEq, List.length_nil, List.nil_append,
            and_true, true_and]
          omega
      · simp only [parseLines, if_neg hl] at h
        rcases ih _ _ _ _ h with hacc | hshape | hstate
        · exact Or.inl hacc
        · exact Or.inr (Or.inl (BlockShape_cons l hshape))
        · exact hstate.elim
    | collectOurs s lab cur =>
      by_cases hl : startsWithL sepMarker l = true
      · simp only [parseLines, hl, if_true] at h
        rcases ih _ _ _ _ h with hacc | hshape | hstate
        · exact Or.inl hacc
        · exact Or.inr (Or.inl (BlockShape_cons l hshape))
        · obtain ⟨theirsExt, closeL, post, hEq, h3, h5, hblk⟩ := hstate
          refine Or.inr (Or.inr ⟨[], l, theirsExt, closeL, post,
            by simp [hEq], hl, h3, by simp, h5, ?_⟩)
          rw [hblk]
          simp only [ConflictBlock.mk.injEq, List.length_nil, List.nil_append,
            List.append_nil, and_true, true_and]
          omega
      · simp only [parseLines, if_neg hl] at h
        rcases ih _ _ _ _ h with hacc | hshape | hstate
        · exact Or.inl hacc
        · exact Or.inr (Or.inl (BlockShape_cons l hshape))
        · obtain ⟨oursExt, sepL, theirsL, closeL, post, hEq, h2, h3, h4, h5, hblk⟩ := hstate
          have hl' : startsWithL sepMarker l = false := by
            exact (Bool.not_eq_true _).mp hl
          refine Or.inr (Or.inr ⟨l :: oursExt, sepL, theirsL, closeL, post,
            by simp [hEq], h2, h3, ?_, h5, ?_⟩)
          · intro x hx
            rcases List.mem_cons.mp hx with rfl | hx
            · exact hl'
            · exact h4 x hx
          · rw [hblk]
            simp only [ConflictBlock.mk.injEq, List.length_cons, List.append_assoc,
              List.singleton_append, List.cons_append, List.nil_append, and_true, true_and]
            omega
    | collectTheirs s lab oursAcc cur =>
      by_cases hl : startsWithL closeMarker l = true
      · simp only [parseLines, hl, if_true] at h
        rcases ih _ _ _ _ h with hacc | hshape | hstate
        · rcases List.mem_append.mp hacc with hacc | hnew
          · exact Or.inl hacc
          · have hblk := List.mem_singleton.mp hnew
            refine Or.inr (Or.inr ⟨[], l, ls, rfl, hl, by simp, ?_⟩)
            rw [hblk]
            simp only [ConflictBlock.mk.injEq, List.length_nil, List.append_nil,
              and_true, true_and]
        · exact Or.inr (Or.inl (BlockShape_cons l hshape))
        · exact hstate.elim
      · simp only [parseLines, if_neg hl] at h
        rcases ih _ _ _ _ h with hacc | hshape | hstate
        · exact Or.inl hacc
        · exact Or.inr (Or.inl (BlockShape_cons l hshape))
        · obtain ⟨theirsExt, closeL, post, hEq, h3, h5, hblk⟩ := hstate
          have hl' : startsWithL closeMarker l = false := (Bool.not_eq_true _).mp hl
          refine Or.inr (Or.inr ⟨l :: theirsExt, closeL, post, by simp [hEq], h3, ?_, ?_⟩)
          · intro x hx
            rcases List.mem_cons.mp hx with rfl | hx
            · exact hl'
            · exact h5 x hx
          · rw [hblk]
            simp only [ConflictBlock.mk.injEq, List.length_cons, List.append_assoc,
              List.singleton_append, List.cons_append, List.nil_append, and_true, true_and]
            omega

/-- Claim C7 counterexample: the parser does not exclude nested marker
tokens from block content. On this input the single emitted block has as
its entire ours content a line that itself begins with the opening
marker token, contradicting the claim that no nested opening-marker line
can occur inside the ours content of an emitted block. -/
theorem claim_C7_counterexample :
    parse_conflict_markers
      [str "<<<<<<< a\n", str "<<<<<<< b\n", str "=======\n", str "x\n",
       str ">>>>>>> c\n"] =
      [{ start_line := 1, end_line := 5,
         ours := str "<<<<<<< b\n", theirs := str "x\n",
         ours_label := str "<<<<<<< a", theirs_label := str ">>>>>>> c" }] ∧
    startsWithL openMarker (str "<<<<<<< b\n") = true := by
  exact ⟨by decide, by decide⟩

/-- Claim C7 as amended: every block emitted by the marker parser was
delimited by all three markers (open, separator, close) found in that
order; the ours content holds no separator line and the theirs content
holds no closing-marker line. (Nested opening-marker lines, closing-marker
lines before the separator, and separator lines after the first are kept
as literal block content, so the original claim that no nested marker
lines of any kind occur in content is false.) -/
theorem claim_C7_amended (lines : List Str) (blk : ConflictBlock)
    (h : blk ∈ parse_conflict_markers lines) : BlockShape lines 0 blk := by
  rcases parseLines_mem lines ParseState.outside 0 [] blk h with h0 | h1 | h2
  · simp at h0
  · exact h1
  · exact h2.elim

/-- Claim C7 witness: the delimiting decomposition at a concrete input. -/
theorem claim_C7_witness :
    BlockShape
      [str "a\n", str "<<<<<<< x\n", str "o\n", str "=======\n", str "t\n",
       str ">>>>>>> y\n", str "b\n"] 0
      { start_line := 2, end_line := 6, ours := str "o\n" ++ [], theirs := str "t\n" ++ [],
        ours_label := str "<<<<<<< x", theirs_label := str ">>>>>>> y" } := by
  apply claim_C7_amended
  decide

/-! Derived views of the classification loop body, proved to coincide
with classifyStep: the type a block receives, and the difficulty update it
causes, are independent of the accumulator. -/

/-- The conflict type a single block receives from the rule chain of
classifyStep (derived view, proved to agree with classifyStep below). -/
def blockType (marker : ConflictBlock) : ConflictType :=
  let ours := pyStrip marker.ours
  let theirs := pyStrip marker.theirs
  if import_keywords.any (fun keyword => isSubstring keyword (ours ++ theirs)) then
    ConflictType.IMPORT
  else if removeWs ours = removeWs theirs then
    ConflictType.WHITESPACE
  else if signature_keywords.any (fun keyword => isSubstring keyword (ours ++ theirs)) then
    ConflictType.FUNCTION_SIGNATURE
  else
    let ours_words := wordSet ours
    let theirs_words := wordSet theirs
    let diff := symmDiffL ours_words theirs_words
    let is_numeric_change := diff.any pyIsDigit
    if is_numeric_change = false ∧ diff.length < 3 ∧ 0 < ours_words.length then
      ConflictType.RENAME
    else
      ConflictType.LOGIC

/-- The running-difficulty update a single block causes, as a function of
its type (derived view, proved to agree with classifyStep below). -/
def blockDiff (t : ConflictType) (d : Difficulty) : Difficulty :=
  match t with
  | ConflictType.FUNCTION_SIGNATURE => pyMax d Difficulty.MEDIUM
  | ConflictType.RENAME => pyMax d Difficulty.MEDIUM
  | ConflictType.LOGIC => Difficulty.HARD
  | _ => d

theorem classifyStep_eq (acc : List ConflictType) (d : Difficulty) (marker : ConflictBlock) :
    classifyStep (acc, d) marker = (acc ++ [blockType marker], blockDiff (blockType marker) d) := by
  unfold classifyStep blockType blockDiff
  dsimp only
  split_ifs <;> rfl

theorem blockType_ne_UNKNOWN (marker : ConflictBlock) : blockType marker ≠ ConflictType.UNKNOWN := by
  unfold blockType
  dsimp only
  split_ifs <;> simp

theorem blockType_ne_REFACTOR (marker : ConflictBlock) : blockType marker ≠ ConflictType.REFACTOR := by
  unfold blockType
  dsimp only
  split_ifs <;> simp

theorem pyMax_MEDIUM_ne_EASY (d : Difficulty) : pyMax d Difficulty.MEDIUM ≠ Difficulty.EASY := by
  cases d <;> decide

theorem blockDiff_eq_EASY (t : ConflictType) (d : Difficulty) :
    blockDiff t d = Difficulty.EASY ↔
      d = Difficulty.EASY ∧ (t = ConflictType.IMPORT ∨ t = ConflictType.WHITESPACE ∨
        t = ConflictType.REFACTOR ∨ t = ConflictType.UNKNOWN) := by
  cases t <;> cases d <;> decide

/-- The per-block types collected by the classification loop are the map
of blockType over the blocks, appended to the incoming accumulator. -/
theorem foldl_classifyStep_types (markers : List ConflictBlock) :
    ∀ (acc : List ConflictType) (d : Difficulty),
      (markers.foldl classifyStep (acc, d)).1 = acc ++ markers.map blockType := by
  induction markers with
  | nil => intro acc d; simp
  | cons m ms ih =>
    intro acc d
    simp only [List.foldl_cons, classifyStep_eq, List.map_cons]
    rw [ih]
    simp

/-- The running difficulty after the classification loop is EASY exactly
when it started EASY and every block received a type that causes no
update. -/
theorem foldl_classifyStep_diff_EASY (markers : List ConflictBlock) :
    ∀ (acc : List ConflictType) (d : Difficulty),
      (markers.foldl classifyStep (acc, d)).2 = Difficulty.EASY ↔
        (d = Difficulty.EASY ∧ ∀ m ∈ markers,
          blockType m = ConflictType.IMPORT ∨ blockType m = ConflictType.WHITESPACE) := by
  induction markers with
  | nil =>
    intro acc d
    simp [List.foldl_nil]
  | cons m ms ih =>
    intro acc d
    simp only [List.foldl_cons, classifyStep_eq]
    rw [ih]
    constructor
    · rintro ⟨hd, hall⟩
      rcases (blockDiff_eq_EASY (blockType m) d).mp hd with ⟨hd0, ht⟩
      refine ⟨hd0, ?_⟩
      intro x hx
      rcases List.mem_cons.mp hx with rfl | hx
      · rcases ht with h | h | h | h
        · exact Or.inl h
        · exact Or.inr h
        · exact absurd h (blockType_ne_REFACTOR x)
        · exact absurd h (blockType_ne_UNKNOWN x)
      · exact hall x hx
    · rintro ⟨hd0, hall⟩
      have hm := hall m (by simp)
      refine ⟨(blockDiff_eq_EASY (blockType m) d).mpr ⟨hd0, ?_⟩, ?_⟩
      · rcases hm with h | h
        · exact Or.inl h
        · exact Or.inr (Or.inl h)
      · intro x hx
        exact hall x (by simp [hx])

/-- The primary type is LOGIC exactly when LOGIC occurs among the
per-block types. -/
theorem primaryType_eq_LOGIC (ts : List ConflictType) :
    primaryType ts = ConflictType.LOGIC ↔ ConflictType.LOGIC ∈ ts := by
  cases ts with
  | nil => simp [primaryType]
  | cons t0 rest =>
    constructor
    · intro h
      unfold primaryType at h
      rcases hfind : (priorityOrder.find? (fun t => decide (t ∈ t0 :: rest))) with _ | t
      · rw [hfind] at h
        simp only at h
        rw [h] at hfind ⊢
        simp
      · rw [hfind] at h
        simp only at h
        have := List.find?_some hfind
        rw [h] at this
        simpa using this
    · intro h
      unfold primaryType priorityOrder
      rw [List.find?_cons_of_pos _ (by simpa using h)]

theorem auto_iff (ts : List ConflictType) :
    (ts.all (fun t => decide (t ∈ [ConflictType.IMPORT, ConflictType.WHITESPACE])) = true) ↔
      ∀ t ∈ ts, t = ConflictType.IMPORT ∨ t = ConflictType.WHITESPACE := by
  simp [List.all_eq_true]

/-- The normal-shape verdict of categorize_conflict on a nonempty block
list, with the classification loop expressed through blockType. -/
theorem categorize_cons (m : ConflictBlock) (ms : List ConflictBlock) :
    categorize_conflict (m :: ms) =
      { type := primaryType ((m :: ms).map blockType),
        difficulty :=
          (if primaryType ((m :: ms).map blockType) = ConflictType.LOGIC then
            (if (m :: ms).length > 3 then Difficulty.ESCALATE else Difficulty.HARD)
          else ((m :: ms).foldl classifyStep ([], Difficulty.EASY)).2),
        auto_resolvable := ((m :: ms).map blockType).all
          (fun t => decide (t ∈ [ConflictType.IMPORT, ConflictType.WHITESPACE])),
        all_types := some ((m :: ms).map blockType),
        num_conflicts := some (m :: ms).length,
        reason := none } := by
  unfold categorize_conflict
  simp only [List.isEmpty_cons, Bool.false_eq_true, if_false]
  rw [foldl_classifyStep_types]
  simp

/-- Claim C2: whenever the file verdict of the classifier reports primary
type LOGIC, the reported difficulty is exactly HARD when the file has at
most 3 parsed conflict blocks and exactly ESCALATE when it has more than
3. -/
theorem claim_C2 (markers : List ConflictBlock)
    (h : (categorize_conflict markers).type = ConflictType.LOGIC) :
    (markers.length ≤ 3 → (categorize_conflict markers).difficulty = Difficulty.HARD) ∧
    (3 < markers.length → (categorize_conflict markers).difficulty = Difficulty.ESCALATE) := by
  cases markers with
  | nil => simp [categorize_conflict, str] at h
  | cons m ms =>
    rw [categorize_cons] at h ⊢
    simp only at h
    simp only [h, if_true]
    constructor
    · intro hlen
      rw [if_neg (by omega)]
    · intro hlen
      rw [if_pos (by omega)]

/-- Claim C2 witness: one all-LOGIC block yields HARD, four all-LOGIC
blocks yield ESCALATE (both sides of each block share no word and differ
in more than two tokens, so every rule before LOGIC fails). -/
theorem claim_C2_witness :
    (categorize_conflict
      [⟨1, 3, str "a b c d", str "e f g h", [], []⟩]).difficulty = Difficulty.HARD ∧
    (categorize_conflict
      [⟨1, 3, str "a b c d", str "e f g h", [], []⟩,
       ⟨4, 6, str "a b c d", str "e f g h", [], []⟩,
       ⟨7, 9, str "a b c d", str "e f g h", [], []⟩,
       ⟨10, 12, str "a b c d", str "e f g h", [], []⟩]).difficulty = Difficulty.ESCALATE := by
  constructor
  · exact (claim_C2 _ (by decide)).1 (by decide)
  · exact (claim_C2 _ (by decide)).2 (by decide)

/-- Claim C3: for every file with at least one parsed conflict block, the
verdict reports a per-block type sequence, and auto_resolvable is true
exactly when every entry of that sequence is IMPORT or WHITESPACE. -/
theorem claim_C3 (markers : List ConflictBlock) (h : markers ≠ []) :
    ∃ ts, (categorize_conflict markers).all_types = some ts ∧
      ((categorize_conflict markers).auto_resolvable = true ↔
        ∀ t ∈ ts, t = ConflictType.IMPORT ∨ t = ConflictType.WHITESPACE) := by
  cases markers with
  | nil => exact absurd rfl h
  | cons m ms =>
    rw [categorize_cons]
    exact ⟨(m :: ms).map blockType, rfl, auto_iff _⟩

/-- Claim C3 witness at a one-IMPORT-block file. -/
theorem claim_C3_witness :
    ∃ ts, (categorize_conflict
        [⟨1, 3, str "import foo\n", str "import bar\n", [], []⟩]).all_types = some ts ∧
      ((categorize_conflict
        [⟨1, 3, str "import foo\n", str "import bar\n", [], []⟩]).auto_resolvable = true ↔
        ∀ t ∈ ts, t = ConflictType.IMPORT ∨ t = ConflictType.WHITESPACE) :=
  claim_C3 _ (by decide)

/-- Claim C10 (implicit invariant): for every file with at least one
parsed conflict block, auto_resolvable is true exactly when the reported
difficulty is EASY; moreover, when any block received type
FUNCTION_SIGNATURE, RENAME or LOGIC, the file is not auto-resolvable and
its reported difficulty is at least MEDIUM in the difficulty order. -/
theorem claim_C10 (markers : List ConflictBlock) (h : markers ≠ []) :
    ((categorize_conflict markers).auto_resolvable = true ↔
      (categorize_conflict markers).difficulty = Difficulty.EASY) ∧
    (∀ ts, (categorize_conflict markers).all_types = some ts →
      (∃ t ∈ ts, t = ConflictType.FUNCTION_SIGNATURE ∨ t = ConflictType.RENAME ∨
        t = ConflictType.LOGIC) →
      (categorize_conflict markers).auto_resolvable = false ∧
        Difficulty.rank Difficulty.MEDIUM ≤ Difficulty.rank (categorize_conflict markers).difficulty) := by
  cases markers with
  | nil => exact absurd rfl h
  | cons m ms =>
    rw [categorize_cons]
    simp only
    have hiff : (((m :: ms).map blockType).all
        (fun t => decide (t ∈ [ConflictType.IMPORT, ConflictType.WHITESPACE])) = true) ↔
        ∀ x ∈ m :: ms, blockType x = ConflictType.IMPORT ∨ blockType x = ConflictType.WHITESPACE := by
      rw [auto_iff]
      constructor
      · intro hall x hx
        exact hall (blockType x) (List.mem_map_of_mem blockType hx)
      · intro hall t ht
        rcases List.mem_map.mp ht with ⟨x, hx, rfl⟩
        exact hall x hx
    have main : (((m :: ms).map blockType).all
        (fun t => decide (t ∈ [ConflictType.IMPORT, ConflictType.WHITESPACE])) = true) ↔
        ((if primaryType ((m :: ms).map blockType) = ConflictType.LOGIC then
            (if (m :: ms).length > 3 then Difficulty.ESCALATE else Difficulty.HARD)
          else ((m :: ms).foldl classifyStep ([], Difficulty.EASY)).2) = Difficulty.EASY) := by
      constructor
      · intro hall
        have hmem := hiff.mp hall
        have hnologic : primaryType ((m :: ms).map blockType) ≠ ConflictType.LOGIC := by
          rw [Ne, primaryType_eq_LOGIC]
          intro hc
          rcases List.mem_map.mp hc with ⟨x, hx, hxt⟩
          rcases hmem x hx with h1 | h1 <;> rw [h1] at hxt <;> exact absurd hxt (by decide)
        rw [if_neg hnologic, foldl_classifyStep_diff_EASY]
        exact ⟨rfl, hmem⟩
      · intro heasy
        by_cases hlogic : primaryType ((m :: ms).map blockType) = ConflictType.LOGIC
        · rw [if_pos hlogic] at heasy
          by_cases hlen : (m :: ms).length > 3
          · rw [if_pos hlen] at heasy; exact absurd heasy (by decide)
          · rw [if_neg hlen] at heasy; exact absurd heasy (by decide)
        · rw [if_neg hlogic, foldl_classifyStep_diff_EASY] at heasy
          exact hiff.mpr heasy.2
    refine ⟨main, ?_⟩
    rintro ts hts ⟨t, htmem, htkind⟩
    have hts' : ts = (m :: ms).map blockType := by
      exact (Option.some_inj.mp hts).symm
    subst hts'
    have hnotauto : ¬(((m :: ms).map blockType).all
        (fun t => decide (t ∈ [ConflictType.IMPORT, ConflictType.WHITESPACE])) = true) := by
      rw [auto_iff]
      intro hall
      rcases hall t htmem with h1 | h1 <;> rw [h1] at htkind <;>
        rcases htkind with h2 | h2 | h2 <;> exact absurd h2 (by decide)
    refine ⟨by simpa using hnotauto, ?_⟩
    have hne : (if primaryType ((m :: ms).map blockType) = ConflictType.LOGIC then
          (if (m :: ms).length > 3 then Difficulty.ESCALATE else Difficulty.HARD)
        else ((m :: ms).foldl classifyStep ([], Difficulty.EASY)).2) ≠ Difficulty.EASY := by
      intro hc
      exact hnotauto (main.mpr hc)
    generalize hd : (if primaryType ((m :: ms).map blockType) = ConflictType.LOGIC then
          (if (m :: ms).length > 3 then Difficulty.ESCALATE else Difficulty.HARD)
        else ((m :: ms).foldl classifyStep ([], Difficulty.EASY)).2) = d at hne
    cases d <;> simp_all [Difficulty.rank]

/-- Claim C10 witness at a one-IMPORT-block file: auto-resolvable and
EASY. -/
theorem claim_C10_witness :
    ((categorize_conflict
        [⟨1, 3, str "import foo\n", str "import bar\n", [], []⟩]).auto_resolvable = true ↔
      (categorize_conflict
        [⟨1, 3, str "import foo\n", str "import bar\n", [], []⟩]).difficulty = Difficulty.EASY) :=
  (claim_C10 _ (by decide)).1

/-- Claim C5: for every block reaching rule 4 (no import substring
matched, the two stripped sides not whitespace-equal, no definition
keyword matched), with W(ours) and W(theirs) the sets of word tokens of
the two stripped sides and D their symmetric difference: the block is
classified RENAME, with the running difficulty updated to the maximum of
its previous value and MEDIUM (hence at least MEDIUM), exactly when D has
no purely numeric token, D has fewer than 3 elements, and W(ours) is
nonempty; otherwise the block falls through to LOGIC with the running
difficulty set to HARD. In particular the sides retries = 2 and
retries = 3 (numeric symmetric difference) fall through to LOGIC. -/
theorem claim_C5 :
    (∀ (acc : List ConflictType) (d : Difficulty) (m : ConflictBlock),
      import_keywords.any (fun keyword =>
        isSubstring keyword (pyStrip m.ours ++ pyStrip m.theirs)) = false →
      removeWs (pyStrip m.ours) ≠ removeWs (pyStrip m.theirs) →
      signature_keywords.any (fun keyword =>
        isSubstring keyword (pyStrip m.ours ++ pyStrip m.theirs)) = false →
      (((∀ t ∈ symmDiffL (wordSet (pyStrip m.ours)) (wordSet (pyStrip m.theirs)),
            pyIsDigit t = false) ∧
          (symmDiffL (wordSet (pyStrip m.ours)) (wordSet (pyStrip m.theirs))).length < 3 ∧
          wordSet (pyStrip m.ours) ≠ [] →
        (classifyStep (acc, d) m = (acc ++ [ConflictType.RENAME], pyMax d Difficulty.MEDIUM) ∧
          Difficulty.rank Difficulty.MEDIUM ≤ Difficulty.rank (classifyStep (acc, d) m).2)) ∧
        (¬((∀ t ∈ symmDiffL (wordSet (pyStrip m.ours)) (wordSet (pyStrip m.theirs)),
            pyIsDigit t = false) ∧
          (symmDiffL (wordSet (pyStrip m.ours)) (wordSet (pyStrip m.theirs))).length < 3 ∧
          wordSet (pyStrip m.ours) ≠ []) →
        classifyStep (acc, d) m = (acc ++ [ConflictType.LOGIC], Difficulty.HARD)))) ∧
    (classifyStep ([], Difficulty.EASY)
        ⟨1, 3, str "retries = 2", str "retries = 3", [], []⟩).1 = [ConflictType.LOGIC] := by
  constructor
  · intro acc d m h1 h2 h3
    unfold classifyStep
    dsimp only
    rw [if_neg (by simp [h1]), if_neg h2, if_neg (by simp [h3])]
    constructor
    · intro hc
      have hcode : (symmDiffL (wordSet (pyStrip m.ours)) (wordSet (pyStrip m.theirs))).any
            pyIsDigit = false ∧
          (symmDiffL (wordSet (pyStrip m.ours)) (wordSet (pyStrip m.theirs))).length < 3 ∧
          0 < (wordSet (pyStrip m.ours)).length := by
        refine ⟨?_, hc.2.1, List.length_pos.mpr hc.2.2⟩
        rw [List.any_eq_false]
        intro x hx
        simp [hc.1 x hx]
      rw [if_pos hcode]
      exact ⟨rfl, by cases d <;> simp [pyMax, Difficulty.rank]⟩
    · intro hc
      have hncode : ¬((symmDiffL (wordSet (pyStrip m.ours)) (wordSet (pyStrip m.theirs))).any
            pyIsDigit = false ∧
          (symmDiffL (wordSet (pyStrip m.ours)) (wordSet (pyStrip m.theirs))).length < 3 ∧
          0 < (wordSet (pyStrip m.ours)).length) := by
        intro hcode
        refine hc ⟨?_, hcode.2.1, List.length_pos.mp hcode.2.2⟩
        intro x hx
        have := List.any_eq_false.mp hcode.1 x hx
        simpa using this
      rw [if_neg hncode]
  · decide

/-- Claim C5 witness: the rename pair total = old_name + 1 versus
total = new_name + 1 reaches rule 4 and is classified RENAME with the
difficulty raised to MEDIUM. -/
theorem claim_C5_witness :
    classifyStep ([], Difficulty.EASY)
        ⟨1, 3, str "total = old_name + 1", str "total = new_name + 1", [], []⟩ =
      ([] ++ [ConflictType.RENAME], pyMax Difficulty.EASY Difficulty.MEDIUM) :=
  ((claim_C5.1 [] Difficulty.EASY
      ⟨1, 3, str "total = old_name + 1", str "total = new_name + 1", [], []⟩
      (by decide) (by decide) (by decide)).1 (by decide)).1

/-- Claim C6 counterexample: the IMPORT rule tests the concatenation of
the two stripped sides, so a keyword can arise across the concatenation
boundary. The block with sides x = fro and m y is classified IMPORT (the
concatenation contains the keyword from followed by a space), although
neither side, raw or stripped, contains any import-marking substring —
refuting the claimed equivalence with per-side containment. -/
theorem claim_C6_counterexample :
    (classifyStep ([], Difficulty.EASY) ⟨1, 3, str "x = fro", str "m y", [], []⟩).1 =
      [ConflictType.IMPORT] ∧
    (∀ k ∈ import_keywords, isSubstring k (str "x = fro") = false) ∧
    (∀ k ∈ import_keywords, isSubstring k (str "m y") = false) ∧
    (∀ k ∈ import_keywords, isSubstring k (pyStrip (str "x = fro")) = false) ∧
    (∀ k ∈ import_keywords, isSubstring k (pyStrip (str "m y")) = false) :=
  ⟨by decide, by decide, by decide, by decide, by decide⟩

/-- Claim C6 as amended: a parsed block is classified IMPORT exactly when
the concatenation of its stripped ours text and stripped theirs text
contains one of the import-marking substrings; containment in either
stripped side alone is sufficient (but not necessary, since a keyword may
span the concatenation boundary). Since IMPORT is the first rule, this
predicate alone decides the IMPORT classification; in particular the
sides import foo and import bar classify as IMPORT. -/
theorem claim_C6_amended :
    (∀ (acc : List ConflictType) (d : Difficulty) (m : ConflictBlock),
      (classifyStep (acc, d) m).1 = acc ++ [ConflictType.IMPORT] ↔
        import_keywords.any (fun keyword =>
          isSubstring keyword (pyStrip m.ours ++ pyStrip m.theirs)) = true) ∧
    (∀ (acc : List ConflictType) (d : Difficulty) (m : ConflictBlock) (k : Str),
      k ∈ import_keywords →
      (isSubstring k (pyStrip m.ours) = true ∨ isSubstring k (pyStrip m.theirs) = true) →
      (classifyStep (acc, d) m).1 = acc ++ [ConflictType.IMPORT]) ∧
    (classifyStep ([], Difficulty.EASY)
        ⟨1, 3, str "import foo", str "import bar", [], []⟩).1 = [ConflictType.IMPORT] := by
  have part1 : ∀ (acc : List ConflictType) (d : Difficulty) (m : ConflictBlock),
      (classifyStep (acc, d) m).1 = acc ++ [ConflictType.IMPORT] ↔
        import_keywords.any (fun keyword =>
          isSubstring keyword (pyStrip m.ours ++ pyStrip m.theirs)) = true := by
    intro acc d m
    rw [classifyStep_eq]
    dsimp only
    have hcan : (acc ++ [blockType m] = acc ++ [ConflictType.IMPORT]) ↔
        blockType m = ConflictType.IMPORT := by simp
    rw [hcan]
    unfold blockType
    dsimp only
    split_ifs with hc1 hc2 hc3 hc4 <;> simp_all
  refine ⟨part1, ?_, ?_⟩
  · intro acc d m k hk hside
    refine (part1 acc d m).mpr ?_
    rw [List.any_eq_true]
    refine ⟨k, hk, ?_⟩
    rcases hside with h | h
    · exact isSubstring_append_left _ h
    · exact isSubstring_append_right _ h
  · decide

/-- Claim C6 witness: a block whose stripped ours side contains the
keyword import followed by a space is classified IMPORT. -/
theorem claim_C6_witness :
    (classifyStep ([], Difficulty.EASY)
        ⟨1, 3, str "import foo\n", str "x\n", [], []⟩).1 = [] ++ [ConflictType.IMPORT] :=
  claim_C6_amended.2.1 [] Difficulty.EASY ⟨1, 3, str "import foo\n", str "x\n", [], []⟩
    (str "import ") (by decide) (Or.inl (by decide))

/-- Claim C4: for every file content, chosen language and language-check
outcome, whenever the content contains any of the three literal marker
tokens, validate_file reports syntax_valid false and the residual-marker
semantic error — overriding whatever the language-specific checker
concluded, including the case where that check errored out. -/
theorem claim_C4 (content language : Str) (check : LangCheck)
    (h : [str "<<<<<<<", str "=======", str ">>>>>>>"].any
      (fun marker => isSubstring marker content) = true) :
    (validate_file content language check).syntax_valid = some false ∧
    str "Conflict markers still present" ∈
      (validate_file content language check).semantic_errors := by
  unfold validate_file
  dsimp only
  rw [if_pos h]
  exact ⟨rfl, by simp⟩

/-- Claim C4 witness: residual marker in the content, unknown language,
successful language check. -/
theorem claim_C4_witness :
    (validate_file (str "x\n<<<<<<< HEAD\n") (str "unknown") LangCheck.ok).syntax_valid =
      some false ∧
    str "Conflict markers still present" ∈
      (validate_file (str "x\n<<<<<<< HEAD\n") (str "unknown") LangCheck.ok).semantic_errors :=
  claim_C4 (str "x\n<<<<<<< HEAD\n") (str "unknown") LangCheck.ok (by decide)

/-- Claim C9: the dependency scanner always returns three lists with at
most 20 imports, at most 20 functions, and an empty variables list, and
an unreadable file yields three empty lists rather than an error. -/
theorem claim_C9 (findall : Str → Str → List Str) (file : Option Str) :
    (analyze_dependencies findall file).imports.length ≤ 20 ∧
    (analyze_dependencies findall file).functions.length ≤ 20 ∧
    (analyze_dependencies findall file).variables' = [] ∧
    (file = none → analyze_dependencies findall file =
      { imports := [], functions := [], variables' := [] }) := by
  cases file with
  | none =>
    exact ⟨by simp [analyze_dependencies], by simp [analyze_dependencies],
      by simp [analyze_dependencies], fun _ => rfl⟩
  | some content =>
    refine ⟨List.length_take_le 20 _, List.length_take_le 20 _, rfl, ?_⟩
    intro hc
    exact absurd hc (by simp)

/-- Claim C9 witness: a concrete regex capability on a readable and on an
unreadable file. -/
theorem claim_C9_witness :
    (analyze_dependencies (fun _ content => [content]) (some (str "import os"))).variables' =
      [] ∧
    analyze_dependencies (fun _ content => [content]) none =
      { imports := [], functions := [], variables' := [] } :=
  ⟨(claim_C9 (fun _ content => [content]) (some (str "import os"))).2.2.1,
   (claim_C9 (fun _ content => [content]) none).2.2.2 rfl⟩

end GitTools
